import Mathlib

/-!
Shallow embedding of the Inventory Catalog Service (`src/index.js`).

State: an in-memory map `inventoryItems` from integer ids to items
(modelled as an association list, mirroring the JS object keyed by the
numeric id), a `nextId` counter starting at 1, and the photo cache
directory `cacheFiles` (filename to bytes, also an association list).

Request ids arrive through `parseInt`; `Option Int` models its result,
with `none` standing for `NaN`.  Uploaded files are staged to the cache
directory by the multer middleware before a handler runs; `StagedFile`
carries the generated filename and the bytes.  `fs.unlink` calls whose
failure the source swallows (`.catch(console.error)`) take a `fsOk`
flag: `true` means the filesystem deletion succeeded, `false` that it
failed (the blob then stays, but control flow is unaffected, as in the
source).
-/

namespace Inventory

/-- A JSON value as far as the service's response bodies need: null,
strings, and integers. -/
inductive JVal where
  | jnull : JVal
  | jstr : String → JVal
  | jnum : Int → JVal
deriving DecidableEq, Repr

/-- A stored inventory item, with the fields of the JS object built in
`app.post('/register')`: `ID`, `InventoryName`, `Description`, `Photo`
(the stored blob filename, `none` for JS `null`). -/
structure Item where
  ID : Int
  InventoryName : String
  Description : String
  Photo : Option String
deriving DecidableEq, Repr

/-- A file staged to the cache directory by the multer middleware:
its generated filename (`Date.now()` prefix plus sanitized original
name) and its bytes. -/
structure StagedFile where
  filename : String
  bytes : List Nat
deriving DecidableEq, Repr

/-- The process-wide mutable state of `src/index.js`: the
`inventoryItems` object, the `nextId` counter, and the contents of the
cache directory backing photo blobs. -/
structure ServerState where
  inventoryItems : List (Int × Item)
  nextId : Int
  cacheFiles : List (String × List Nat)
deriving DecidableEq, Repr

/-- Initial state: `let inventoryItems = {}; let nextId = 1;` and an
empty cache directory. -/
def initialState : ServerState := ⟨[], 1, []⟩

/-- Key lookup in the items map (JS property access `inventoryItems[id]`). -/
def itemLookup (k : Int) : List (Int × Item) → Option Item
  | [] => none
  | (k2, v) :: rest => if k2 = k then some v else itemLookup k rest

/-- Lookup of a file's bytes in the cache directory. -/
def blobLookup (k : String) : List (String × List Nat) → Option (List Nat)
  | [] => none
  | (k2, v) :: rest => if k2 = k then some v else blobLookup k rest

/-- Field lookup in a JSON object rendered as a key/value list. -/
def jlookup (k : String) : List (String × JVal) → Option JVal
  | [] => none
  | (k2, v) :: rest => if k2 = k then some v else jlookup k rest

/-- Removal of a file from the cache directory (`fs.unlink` that
succeeds); removing an absent name is a no-op, as the source swallows
the resulting error. -/
def removeBlob (fn : String) : List (String × List Nat) → List (String × List Nat)
  | [] => []
  | (k, v) :: rest => if k = fn then removeBlob fn rest else (k, v) :: removeBlob fn rest

/-- Writing a file into the cache directory (multer's disk storage);
a same-named file is overwritten. -/
def storeBlob (l : List (String × List Nat)) (fn : String) (bytes : List Nat) :
    List (String × List Nat) :=
  (fn, bytes) :: removeBlob fn l

/-- A `fs.unlink(...).catch(console.error)` call: if the filesystem
cooperates (`fsOk`) the file is removed, otherwise the failure is
logged and the store is untouched; either way execution continues. -/
def unlinkBlob (l : List (String × List Nat)) (fn : String) (fsOk : Bool) :
    List (String × List Nat) :=
  if fsOk then removeBlob fn l else l

/-- Removal of a key from the items map (`delete inventoryItems[k]`). -/
def removeItem (k : Int) : List (Int × Item) → List (Int × Item)
  | [] => []
  | (k2, v) :: rest => if k2 = k then removeItem k rest else (k2, v) :: removeItem k rest

/-- In-place mutation of the item stored at key `k` (JS mutation of the
object reference found at that key); a no-op when the key is absent. -/
def setItem (k : Int) (it : Item) : List (Int × Item) → List (Int × Item)
  | [] => []
  | (k2, v) :: rest =>
    if k2 = k then (k2, it) :: setItem k it rest else (k2, v) :: setItem k it rest

/-- JS truthiness of a string-or-null value: `null` and the empty
string are falsy, every other string is truthy. -/
def strTruthy : Option String → Bool
  | none => false
  | some s => s ≠ ""

/-- JS `v || dflt` on a string-or-absent value. -/
def jsOr (v : Option String) (dflt : String) : String :=
  match v with
  | some s => if s = "" then dflt else s
  | none => dflt

/-- Outcome of a request: `ok status body` for a success response,
`err status message` for an error response `{error: message}`. -/
inductive HResult (α : Type) where
  | ok : Nat → α → HResult α
  | err : Nat → String → HResult α
deriving DecidableEq, Repr

/-- `prepareItemResponse` from the source: the standard item view with
`ID`, `InventoryName`, `Description` and `PhotoLink` (the derived path
`/inventory/{id}/photo` when `item.Photo` is truthy, JSON null
otherwise). -/
def prepareItemResponse (item : Item) : List (String × JVal) :=
  [("ID", JVal.jnum item.ID),
   ("InventoryName", JVal.jstr item.InventoryName),
   ("Description", JVal.jstr item.Description),
   ("PhotoLink", if strTruthy item.Photo
     then JVal.jstr ("/inventory/" ++ toString item.ID ++ "/photo")
     else JVal.jnull)]

/-- `findItem` from the source (without the response side effect,
which the callers reproduce): look the parsed id up in the map; a `NaN`
id (`none`) never matches. -/
def findItem (s : ServerState) (reqId : Option Int) : Option Item :=
  match reqId with
  | none => none
  | some i => itemLookup i s.inventoryItems

/-- `app.post('/register')`.  The multer middleware stages the photo
(if any) to the cache first.  A falsy `inventory_name` (absent or
empty) yields 400 and unlinks the staged file; otherwise the item is
stored under `nextId++` and the created view is returned with 201. -/
def register (s0 : ServerState) (inventory_name description : Option String)
    (photo : Option StagedFile) (fsOk : Bool) :
    ServerState × HResult (List (String × JVal)) :=
  let s := match photo with
    | some f => { s0 with cacheFiles := storeBlob s0.cacheFiles f.filename f.bytes }
    | none => s0
  if strTruthy inventory_name then
    let newId := s.nextId
    let item : Item :=
      ⟨newId, inventory_name.getD "", jsOr description "", photo.map StagedFile.filename⟩
    ({ s with inventoryItems := s.inventoryItems ++ [(newId, item)], nextId := newId + 1 },
     HResult.ok 201 (prepareItemResponse item))
  else
    let s2 := match photo with
      | some f => { s with cacheFiles := unlinkBlob s.cacheFiles f.filename fsOk }
      | none => s
    (s2, HResult.err 400 "inventory_name is required")

/-- `app.get('/inventory')`: the list of all item views. -/
def listInventory (s : ServerState) : List (List (String × JVal)) :=
  s.inventoryItems.map (fun p => prepareItemResponse p.2)

/-- `app.get('/inventory/:id')`. -/
def getInventoryItem (s : ServerState) (reqId : Option Int) :
    ServerState × HResult (List (String × JVal)) :=
  match findItem s reqId with
  | none => (s, HResult.err 404 "not found")
  | some item => (s, HResult.ok 200 (prepareItemResponse item))

/-- `app.put('/inventory/:id')`: fields present in the body
(`!== undefined`) overwrite the item's fields in place; absent fields
are kept. -/
def updateInventoryItem (s : ServerState) (reqId : Option Int)
    (invName desc : Option String) :
    ServerState × HResult (List (String × JVal)) :=
  match reqId with
  | none => (s, HResult.err 404 "not found")
  | some i =>
    match itemLookup i s.inventoryItems with
    | none => (s, HResult.err 404 "not found")
    | some item =>
      let item2 : Item := { item with
        InventoryName := match invName with | some v => v | none => item.InventoryName
        Description := match desc with | some v => v | none => item.Description }
      ({ s with inventoryItems := setItem i item2 s.inventoryItems },
       HResult.ok 200 (prepareItemResponse item2))

/-- `app.delete('/inventory/:id')`: unlink the photo blob if the item
has one (best-effort), then `delete inventoryItems[item.ID]`. -/
def deleteInventoryItem (s : ServerState) (reqId : Option Int) (fsOk : Bool) :
    ServerState × HResult String :=
  match findItem s reqId with
  | none => (s, HResult.err 404 "not found")
  | some item =>
    let s1 := match item.Photo with
      | some p =>
        if p = "" then s
        else { s with cacheFiles := unlinkBlob s.cacheFiles p fsOk }
      | none => s
    ({ s1 with inventoryItems := removeItem item.ID s1.inventoryItems },
     HResult.ok 200 "deleted")

/-- `app.get('/inventory/:id/photo')`: 404 when the item is absent or
its `Photo` is falsy; otherwise the file is served with content type
`image/jpeg`, and a read failure surfaces as a 500. -/
def getInventoryPhoto (s : ServerState) (reqId : Option Int) :
    ServerState × HResult (String × List Nat) :=
  match reqId with
  | none => (s, HResult.err 404 "photo not found")
  | some i =>
    match itemLookup i s.inventoryItems with
    | none => (s, HResult.err 404 "photo not found")
    | some item =>
      match item.Photo with
      | none => (s, HResult.err 404 "photo not found")
      | some p =>
        if p = "" then (s, HResult.err 404 "photo not found")
        else match blobLookup p s.cacheFiles with
          | some bytes => (s, HResult.ok 200 ("image/jpeg", bytes))
          | none => (s, HResult.err 500 "server error")

/-- `app.put('/inventory/:id/photo')`.  The multer middleware stages
the uploaded file first; then: 404 if the item is absent (the staged
file, if any, is NOT cleaned up), 400 if no file was uploaded;
otherwise the old blob is unlinked (best-effort) and the item's
`Photo` is set to the new filename. -/
def replaceInventoryPhoto (s0 : ServerState) (reqId : Option Int)
    (file : Option StagedFile) (fsOk : Bool) :
    ServerState × HResult (List (String × JVal)) :=
  let s := match file with
    | some f => { s0 with cacheFiles := storeBlob s0.cacheFiles f.filename f.bytes }
    | none => s0
  match reqId with
  | none => (s, HResult.err 404 "not found")
  | some i =>
    match itemLookup i s.inventoryItems with
    | none => (s, HResult.err 404 "not found")
    | some item =>
      match file with
      | none => (s, HResult.err 400 "no file provided")
      | some f =>
        let s1 := match item.Photo with
          | some p =>
            if p = "" then s
            else { s with cacheFiles := unlinkBlob s.cacheFiles p fsOk }
          | none => s
        let item2 : Item := { item with Photo := some f.filename }
        ({ s1 with inventoryItems := setItem i item2 s1.inventoryItems },
         HResult.ok 200 (prepareItemResponse item2))

/-- `app.post('/search')`: the reduced view always carries `ID`,
`InventoryName` and `Description`; `PhotoLink` is appended only when
the `has_photo` checkbox value is exactly `"on"` and the item's photo
is truthy — otherwise the field is absent, not null. -/
def searchItem (s : ServerState) (reqId : Option Int) (has_photo : Option String) :
    ServerState × HResult (List (String × JVal)) :=
  match reqId with
  | none => (s, HResult.err 404 "not found")
  | some i =>
    match itemLookup i s.inventoryItems with
    | none => (s, HResult.err 404 "not found")
    | some item =>
      let base := [("ID", JVal.jnum item.ID),
                   ("InventoryName", JVal.jstr item.InventoryName),
                   ("Description", JVal.jstr item.Description)]
      let resp := if has_photo = some "on" ∧ strTruthy item.Photo
        then base ++ [("PhotoLink",
               JVal.jstr ("/inventory/" ++ toString item.ID ++ "/photo"))]
        else base
      (s, HResult.ok 200 resp)

/-- A state-mutating request, for reasoning about request sequences.
`opRegister` and `opDelete` are the operations of claim C1; `opUpdate`
and `opReplacePhoto` are the two other mutators, included so that the
well-formedness invariant is established for every reachable state. -/
inductive Op where
  | opRegister : Option String → Option String → Option StagedFile → Bool → Op
  | opUpdate : Option Int → Option String → Option String → Op
  | opDelete : Option Int → Bool → Op
  | opReplacePhoto : Option Int → Option StagedFile → Bool → Op
deriving DecidableEq, Repr

/-- The state after handling one mutating request. -/
def step (s : ServerState) : Op → ServerState
  | Op.opRegister n d p fsOk => (register s n d p fsOk).1
  | Op.opUpdate i n d => (updateInventoryItem s i n d).1
  | Op.opDelete i fsOk => (deleteInventoryItem s i fsOk).1
  | Op.opReplacePhoto i f fsOk => (replaceInventoryPhoto s i f fsOk).1

/-- The state after handling a sequence of mutating requests. -/
def runOps : ServerState → List Op → ServerState
  | s, [] => s
  | s, op :: rest => runOps (step s op) rest

/-- The id a register response reports: the `ID` field of the item
view in a 201 response, nothing otherwise. -/
def assignedId : HResult (List (String × JVal)) → Option Int
  | HResult.ok 201 body =>
    match jlookup "ID" body with
    | some (JVal.jnum n) => some n
    | _ => none
  | _ => none

/-- The ids reported by the successful register calls of a request
sequence, in order. -/
def assignedIds : ServerState → List Op → List Int
  | _, [] => []
  | s, Op.opRegister n d p fsOk :: rest =>
    (match assignedId (register s n d p fsOk).2 with
     | some i => [i]
     | none => []) ++ assignedIds (register s n d p fsOk).1 rest
  | s, Op.opUpdate i n d :: rest => assignedIds (updateInventoryItem s i n d).1 rest
  | s, Op.opDelete i fsOk :: rest => assignedIds (deleteInventoryItem s i fsOk).1 rest
  | s, Op.opReplacePhoto i f fsOk :: rest =>
    assignedIds (replaceInventoryPhoto s i f fsOk).1 rest

/-- Well-formedness of the catalog, true in every reachable state:
each entry's stored `ID` equals its key and every key is below the
`nextId` counter. -/
def WF (s : ServerState) : Prop :=
  ∀ p ∈ s.inventoryItems, p.2.ID = p.1 ∧ p.1 < s.nextId

/-! ### Association-list lemmas -/

theorem itemLookup_eq_some_mem {k : Int} {l : List (Int × Item)} {it : Item}
    (h : itemLookup k l = some it) : (k, it) ∈ l := by
  induction l with
  | nil => simp [itemLookup] at h
  | cons p rest ih =>
    obtain ⟨k2, v⟩ := p
    by_cases hk : k2 = k
    · subst hk
      simp [itemLookup] at h
      simp [h]
    · simp [itemLookup, hk] at h
      exact List.mem_cons_of_mem _ (ih h)

theorem itemLookup_append_right {k : Int} {l l2 : List (Int × Item)}
    (h : itemLookup k l = none) : itemLookup k (l ++ l2) = itemLookup k l2 := by
  induction l with
  | nil => simp
  | cons p rest ih =>
    obtain ⟨k2, v⟩ := p
    by_cases hk : k2 = k
    · simp [itemLookup, hk] at h
    · simp [itemLookup, hk] at h ⊢
      exact ih h

theorem itemLookup_none_of_keys_lt {k : Int} {l : List (Int × Item)}
    (h : ∀ p ∈ l, p.1 < k) : itemLookup k l = none := by
  induction l with
  | nil => rfl
  | cons p rest ih =>
    obtain ⟨k2, v⟩ := p
    have h1 : k2 < k := (h (k2, v) (List.mem_cons_self _ _))
    have hk : k2 ≠ k := ne_of_lt h1
    simp [itemLookup, hk]
    exact ih (fun q hq => h q (List.mem_cons_of_mem _ hq))

theorem removeItem_lookup_self (k : Int) (l : List (Int × Item)) :
    itemLookup k (removeItem k l) = none := by
  induction l with
  | nil => rfl
  | cons p rest ih =>
    obtain ⟨k2, v⟩ := p
    by_cases hk : k2 = k
    · simp [removeItem, hk, ih]
    · simp [removeItem, itemLookup, hk, ih]

theorem removeItem_lookup_ne {k j : Int} (l : List (Int × Item)) (h : j ≠ k) :
    itemLookup j (removeItem k l) = itemLookup j l := by
  induction l with
  | nil => rfl
  | cons p rest ih =>
    obtain ⟨k2, v⟩ := p
    by_cases hk : k2 = k
    · subst hk
      have : k2 ≠ j := fun hc => h hc.symm
      simp [removeItem, itemLookup, this, ih]
    · by_cases hj : k2 = j
      · subst hj
        simp [removeItem, itemLookup, hk, h]
      · simp [removeItem, itemLookup, hk, hj, ih]

theorem removeItem_subset {k : Int} {l : List (Int × Item)} {p : Int × Item}
    (h : p ∈ removeItem k l) : p ∈ l := by
  induction l with
  | nil => simp [removeItem] at h
  | cons q rest ih =>
    obtain ⟨k2, v⟩ := q
    by_cases hk : k2 = k
    · simp [removeItem, hk] at h
      exact List.mem_cons_of_mem _ (ih h)
    · simp [removeItem, hk] at h
      rcases h with h | h
      · simp [h]
      · exact List.mem_cons_of_mem _ (ih h)

theorem setItem_lookup_self {k : Int} {l : List (Int × Item)} {it it2 : Item}
    (h : itemLookup k l = some it) : itemLookup k (setItem k it2 l) = some it2 := by
  induction l with
  | nil => simp [itemLookup] at h
  | cons p rest ih =>
    obtain ⟨k2, v⟩ := p
    by_cases hk : k2 = k
    · simp [setItem, itemLookup, hk]
    · simp [setItem, itemLookup, hk] at h ⊢
      exact ih h

theorem setItem_lookup_ne {k j : Int} (l : List (Int × Item)) (it2 : Item) (h : j ≠ k) :
    itemLookup j (setItem k it2 l) = itemLookup j l := by
  induction l with
  | nil => rfl
  | cons p rest ih =>
    obtain ⟨k2, v⟩ := p
    by_cases hk : k2 = k
    · subst hk
      have : k2 ≠ j := fun hc => h hc.symm
      simp [setItem, itemLookup, this, ih]
    · by_cases hj : k2 = j
      · subst hj
        simp [setItem, itemLookup, hk, h]
      · simp [setItem, itemLookup, hk, hj, ih]

theorem setItem_mem {k : Int} {l : List (Int × Item)} {it2 : Item} {p : Int × Item}
    (h : p ∈ setItem k it2 l) : p ∈ l ∨ (p.1 = k ∧ p.2 = it2 ∧ (k, it2) ∈ setItem k it2 l) := by
  induction l with
  | nil => simp [setItem] at h
  | cons q rest ih =>
    obtain ⟨k2, v⟩ := q
    by_cases hk : k2 = k
    · subst hk
      simp [setItem] at h
      rcases h with h | h
      · right
        refine ⟨by simp [h], by simp [h], ?_⟩
        simp [setItem, h]
      · rcases ih h with h2 | h2
        · exact Or.inl (List.mem_cons_of_mem _ h2)
        · right
          refine ⟨h2.1, h2.2.1, ?_⟩
          simp [setItem]
    · simp [setItem, hk] at h
      rcases h with h | h
      · left
        simp [h]
      · rcases ih h with h2 | h2
        · exact Or.inl (List.mem_cons_of_mem _ h2)
        · right
          refine ⟨h2.1, h2.2.1, ?_⟩
          simp [setItem, hk]
          exact Or.inr h2.2.2

theorem blobLookup_removeBlob_self (fn : String) (l : List (String × List Nat)) :
    blobLookup fn (removeBlob fn l) = none := by
  induction l with
  | nil => rfl
  | cons p rest ih =>
    obtain ⟨k, v⟩ := p
    by_cases hk : k = fn
    · simp [removeBlob, hk, ih]
    · simp [removeBlob, blobLookup, hk, ih]

theorem blobLookup_removeBlob_ne {fn j : String} (l : List (String × List Nat)) (h : j ≠ fn) :
    blobLookup j (removeBlob fn l) = blobLookup j l := by
  induction l with
  | nil => rfl
  | cons p rest ih =>
    obtain ⟨k, v⟩ := p
    by_cases hk : k = fn
    · subst hk
      have : k ≠ j := fun hc => h hc.symm
      simp [removeBlob, blobLookup, this, ih]
    · by_cases hj : k = j
      · subst hj
        simp [removeBlob, blobLookup, hk, h]
      · simp [removeBlob, blobLookup, hk, hj, ih]

theorem blobLookup_storeBlob_self (l : List (String × List Nat)) (fn : String) (b : List Nat) :
    blobLookup fn (storeBlob l fn b) = some b := by
  simp [storeBlob, blobLookup]

theorem blobLookup_storeBlob_ne {fn j : String} (l : List (String × List Nat)) (b : List Nat)
    (h : j ≠ fn) : blobLookup j (storeBlob l fn b) = blobLookup j l := by
  have : fn ≠ j := fun hc => h hc.symm
  simp [storeBlob, blobLookup, this]
  exact blobLookup_removeBlob_ne l h

/-! ### Counter and assigned-id lemmas -/

theorem register_of_truthy (s : ServerState) (n d : Option String)
    (p : Option StagedFile) (fsOk : Bool) (h : strTruthy n = true) :
    (register s n d p fsOk).1.nextId = s.nextId + 1 ∧
    assignedId (register s n d p fsOk).2 = some s.nextId := by
  unfold register
  cases p <;> simp [h, assignedId, prepareItemResponse, jlookup]

theorem register_of_falsy (s : ServerState) (n d : Option String)
    (p : Option StagedFile) (fsOk : Bool) (h : strTruthy n = false) :
    (register s n d p fsOk).1.nextId = s.nextId ∧
    (register s n d p fsOk).1.inventoryItems = s.inventoryItems ∧
    assignedId (register s n d p fsOk).2 = none := by
  unfold register
  cases p <;> simp [h, assignedId]

theorem updateInventoryItem_frame (s : ServerState) (i : Option Int)
    (n d : Option String) :
    (updateInventoryItem s i n d).1.nextId = s.nextId ∧
    (updateInventoryItem s i n d).1.cacheFiles = s.cacheFiles := by
  unfold updateInventoryItem
  cases i with
  | none => simp
  | some j => cases h : itemLookup j s.inventoryItems <;> simp [h]

theorem deleteInventoryItem_frame (s : ServerState) (i : Option Int) (fsOk : Bool) :
    (deleteInventoryItem s i fsOk).1.nextId = s.nextId := by
  unfold deleteInventoryItem findItem
  cases i with
  | none => simp
  | some j =>
    cases h : itemLookup j s.inventoryItems with
    | none => simp [h]
    | some item =>
      cases hp : item.Photo with
      | none => simp [h, hp]
      | some p =>
        by_cases hpe : p = "" <;> simp [h, hp, hpe]

theorem replaceInventoryPhoto_nextId (s : ServerState) (i : Option Int)
    (f : Option StagedFile) (fsOk : Bool) :
    (replaceInventoryPhoto s i f fsOk).1.nextId = s.nextId := by
  unfold replaceInventoryPhoto
  cases f with
  | none =>
    cases i with
    | none => simp
    | some j =>
      cases h : itemLookup j s.inventoryItems <;> simp [h]
  | some f0 =>
    cases i with
    | none => simp
    | some j =>
      cases h : itemLookup j s.inventoryItems with
      | none => simp [h]
      | some item =>
        cases hp : item.Photo with
        | none => simp [h, hp]
        | some p =>
          by_cases hpe : p = "" <;> simp [h, hp, hpe]

theorem step_nextId_mono (s : ServerState) (op : Op) :
    s.nextId ≤ (step s op).nextId := by
  cases op with
  | opRegister n d p fsOk =>
    cases h : strTruthy n with
    | true =>
      have := (register_of_truthy s n d p fsOk h).1
      simp [step, this]
    | false =>
      have := (register_of_falsy s n d p fsOk h).1
      simp [step, this]
  | opUpdate i n d =>
    have := (updateInventoryItem_frame s i n d).1
    simp [step, this]
  | opDelete i fsOk =>
    have := deleteInventoryItem_frame s i fsOk
    simp [step, this]
  | opReplacePhoto i f fsOk =>
    have := replaceInventoryPhoto_nextId s i f fsOk
    simp [step, this]

theorem assignedIds_lower (ops : List Op) : ∀ s : ServerState,
    ∀ j ∈ assignedIds s ops, s.nextId ≤ j := by
  induction ops with
  | nil => intro s j hj; simp [assignedIds] at hj
  | cons op rest ih =>
    intro s j hj
    cases op with
    | opRegister n d p fsOk =>
      cases h : strTruthy n with
      | true =>
        obtain ⟨h1, h2⟩ := register_of_truthy s n d p fsOk h
        rw [assignedIds, h2] at hj
        simp at hj
        rcases hj with hj | hj
        · exact le_of_eq hj.symm
        · have := ih (register s n d p fsOk).1 j hj
          omega
      | false =>
        obtain ⟨h1, _, h2⟩ := register_of_falsy s n d p fsOk h
        rw [assignedIds, h2] at hj
        simp at hj
        have := ih (register s n d p fsOk).1 j hj
        omega
    | opUpdate i n d =>
      rw [assignedIds] at hj
      have := ih (updateInventoryItem s i n d).1 j hj
      have h2 := step_nextId_mono s (Op.opUpdate i n d)
      simp [step] at h2
      omega
    | opDelete i fsOk =>
      rw [assignedIds] at hj
      have := ih (deleteInventoryItem s i fsOk).1 j hj
      have h2 := step_nextId_mono s (Op.opDelete i fsOk)
      simp [step] at h2
      omega
    | opReplacePhoto i f fsOk =>
      rw [assignedIds] at hj
      have := ih (replaceInventoryPhoto s i f fsOk).1 j hj
      have h2 := step_nextId_mono s (Op.opReplacePhoto i f fsOk)
      simp [step] at h2
      omega

theorem assignedIds_chain (ops : List Op) : ∀ s : ServerState,
    List.Chain' (fun a b => a < b) (assignedIds s ops) := by
  induction ops with
  | nil => intro s; simp [assignedIds]
  | cons op rest ih =>
    intro s
    cases op with
    | opRegister n d p fsOk =>
      cases h : strTruthy n with
      | true =>
        obtain ⟨h1, h2⟩ := register_of_truthy s n d p fsOk h
        rw [assignedIds, h2]
        simp only [List.singleton_append]
        refine List.Chain'.cons' (ih _) ?_
        intro y hy
        have hmem := List.mem_of_mem_head? hy
        have := assignedIds_lower rest (register s n d p fsOk).1 y hmem
        omega
      | false =>
        obtain ⟨h1, _, h2⟩ := register_of_falsy s n d p fsOk h
        rw [assignedIds, h2]
        simpa using ih (register s n d p fsOk).1
    | opUpdate i n d => rw [assignedIds]; exact ih _
    | opDelete i fsOk => rw [assignedIds]; exact ih _
    | opReplacePhoto i f fsOk => rw [assignedIds]; exact ih _

/-! ### Well-formedness preservation -/

theorem WF_initialState : WF initialState := by
  intro p hp
  simp [initialState] at hp

theorem WF_register (s : ServerState) (n d : Option String) (p : Option StagedFile)
    (fsOk : Bool) (hw : WF s) : WF (register s n d p fsOk).1 := by
  unfold register
  cases h : strTruthy n with
  | true =>
    cases p with
    | none =>
      simp [h]
      intro q hq
      simp at hq
      rcases hq with hq | hq
      · have := hw q hq
        refine ⟨this.1, ?_⟩
        have h2 := this.2
        simp
        omega
      · simp [hq]
    | some f =>
      simp [h]
      intro q hq
      simp at hq
      rcases hq with hq | hq
      · have := hw q hq
        refine ⟨this.1, ?_⟩
        have h2 := this.2
        simp
        omega
      · simp [hq]
  | false =>
    cases p with
    | none => simpa [h] using hw
    | some f =>
      simp [h]
      intro q hq
      exact hw q hq

theorem WF_update (s : ServerState) (i : Option Int) (n d : Option String)
    (hw : WF s) : WF (updateInventoryItem s i n d).1 := by
  unfold updateInventoryItem
  cases i with
  | none => simpa using hw
  | some j =>
    cases h : itemLookup j s.inventoryItems with
    | none => simpa [h] using hw
    | some item =>
      simp [h]
      intro q hq
      rcases setItem_mem hq with hq2 | hq2
      · exact hw q hq2
      · obtain ⟨hk, hv, _⟩ := hq2
        have hmem := itemLookup_eq_some_mem h
        have := hw (j, item) hmem
        refine ⟨?_, ?_⟩
        · rw [hv, hk]
          simpa using this.1
        · rw [hk]
          simpa using this.2

theorem WF_delete (s : ServerState) (i : Option Int) (fsOk : Bool)
    (hw : WF s) : WF (deleteInventoryItem s i fsOk).1 := by
  unfold deleteInventoryItem findItem
  cases i with
  | none => simpa using hw
  | some j =>
    cases h : itemLookup j s.inventoryItems with
    | none => simpa [h] using hw
    | some item =>
      cases hp : item.Photo with
      | none =>
        simp [h, hp]
        intro q hq
        exact hw q (removeItem_subset hq)
      | some p0 =>
        by_cases hpe : p0 = "" <;>
          · simp [h, hp, hpe]
            intro q hq
            exact hw q (removeItem_subset hq)

theorem WF_replacePhoto (s : ServerState) (i : Option Int) (f : Option StagedFile)
    (fsOk : Bool) (hw : WF s) : WF (replaceInventoryPhoto s i f fsOk).1 := by
  have key : ∀ (cf : List (String × List Nat)) (j : Int) (item : Item) (fn : String),
      itemLookup j s.inventoryItems = some item →
      WF ⟨setItem j ⟨item.ID, item.InventoryName, item.Description, some fn⟩
            s.inventoryItems, s.nextId, cf⟩ := by
    intro cf j item fn h q hq
    simp only [WF] at hq ⊢
    rcases setItem_mem hq with hq2 | hq2
    · have := hw q hq2
      exact ⟨this.1, by simpa using this.2⟩
    · obtain ⟨hk, hv, _⟩ := hq2
      have hmem := itemLookup_eq_some_mem h
      have h2 := hw (j, item) hmem
      refine ⟨?_, ?_⟩
      · rw [hv, hk]
        simpa using h2.1
      · rw [hk]
        simpa using h2.2
  unfold replaceInventoryPhoto
  cases f with
  | none =>
    cases i with
    | none => simpa using hw
    | some j =>
      cases h : itemLookup j s.inventoryItems <;> simpa [h] using hw
  | some f0 =>
    cases i with
    | none =>
      simp
      intro q hq
      exact hw q hq
    | some j =>
      cases h : itemLookup j s.inventoryItems with
      | none =>
        simp [h]
        intro q hq
        exact hw q hq
      | some item =>
        cases hp : item.Photo with
        | none =>
          simp [h, hp]
          exact key _ j item f0.filename h
        | some p0 =>
          by_cases hpe : p0 = ""
          · simp [h, hp, hpe]
            exact key _ j item f0.filename h
          · simp [h, hp, hpe]
            exact key _ j item f0.filename h

theorem WF_step (s : ServerState) (op : Op) (hw : WF s) : WF (step s op) := by
  cases op with
  | opRegister n d p fsOk => exact WF_register s n d p fsOk hw
  | opUpdate i n d => exact WF_update s i n d hw
  | opDelete i fsOk => exact WF_delete s i fsOk hw
  | opReplacePhoto i f fsOk => exact WF_replacePhoto s i f fsOk hw

theorem WF_runOps (ops : List Op) : ∀ s : ServerState, WF s → WF (runOps s ops) := by
  induction ops with
  | nil => intro s hw; exact hw
  | cons op rest ih => intro s hw; exact ih _ (WF_step s op hw)

/-- C1: starting from the initial catalog, over any sequence of
mutating requests (in particular Register and Delete requests in any
interleaving), the ids reported by successful Register calls form a
strictly increasing sequence — hence no id is ever assigned twice —
and no single request ever decreases the `nextId` counter. -/
theorem register_ids_strictly_increasing (ops : List Op) :
    List.Chain' (fun a b => a < b) (assignedIds initialState ops) ∧
    List.Pairwise (fun a b => a ≠ b) (assignedIds initialState ops) ∧
    ∀ (s : ServerState) (op : Op), s.nextId ≤ (step s op).nextId := by
  refine ⟨assignedIds_chain ops initialState, ?_, step_nextId_mono⟩
  have hc := assignedIds_chain ops initialState
  have hp := (List.chain'_iff_pairwise).mp hc
  exact hp.imp (fun h => ne_of_lt h)

/-! ### Further helper lemmas -/

theorem jsOr_empty (v : Option String) : jsOr v "" = v.getD "" := by
  cases v with
  | none => rfl
  | some s =>
    by_cases hs : s = "" <;> simp [jsOr, hs]

theorem removeItem_mem_ne {k : Int} {l : List (Int × Item)} {p : Int × Item}
    (h : p ∈ removeItem k l) : p.1 ≠ k := by
  induction l with
  | nil => simp [removeItem] at h
  | cons q rest ih =>
    obtain ⟨k2, v⟩ := q
    by_cases hk : k2 = k
    · simp [removeItem, hk] at h
      exact ih h
    · simp [removeItem, hk] at h
      rcases h with h | h
      · simp [h]
        exact hk
      · exact ih h

theorem jlookup_prepare (item : Item) :
    jlookup "ID" (prepareItemResponse item) = some (JVal.jnum item.ID) ∧
    jlookup "InventoryName" (prepareItemResponse item)
      = some (JVal.jstr item.InventoryName) ∧
    jlookup "Description" (prepareItemResponse item)
      = some (JVal.jstr item.Description) ∧
    jlookup "PhotoLink" (prepareItemResponse item)
      = some (if strTruthy item.Photo
          then JVal.jstr ("/inventory/" ++ toString item.ID ++ "/photo")
          else JVal.jnull) := by
  refine ⟨rfl, ?_, ?_, ?_⟩ <;> simp [prepareItemResponse, jlookup]

/-! ### Claim theorems -/

/-- C2: a Register call whose `inventory_name` is absent or empty
fails with status 400, leaves the catalog map and the `nextId` counter
unchanged, and (when the filesystem deletion succeeds, as it does for
the just-staged file) removes the staged photo blob, leaving no
orphan. -/
theorem register_invalid_name (s : ServerState) (name desc : Option String)
    (photo : Option StagedFile) (fsOk : Bool) (h : strTruthy name = false) :
    (register s name desc photo fsOk).2 = HResult.err 400 "inventory_name is required" ∧
    (register s name desc photo fsOk).1.inventoryItems = s.inventoryItems ∧
    (register s name desc photo fsOk).1.nextId = s.nextId ∧
    (fsOk = true → ∀ f, photo = some f →
      blobLookup f.filename (register s name desc photo fsOk).1.cacheFiles = none) := by
  unfold register
  cases photo with
  | none => simp [h]
  | some f =>
    simp [h]
    intro hOk
    subst hOk
    simp [unlinkBlob]
    exact blobLookup_removeBlob_self _ _

/-- Witness for C2 at a concrete input: registering with no name and a
staged photo on the initial state yields 400. -/
theorem register_invalid_name_witness :
    (register initialState none none (some (StagedFile.mk "1700-a.jpg" [7])) true).2 =
      HResult.err 400 "inventory_name is required" :=
  (register_invalid_name initialState none none
    (some (StagedFile.mk "1700-a.jpg" [7])) true rfl).1

/-- C4: a Register call with a truthy (non-empty) name succeeds with
201, stores the new item under the current `nextId` with the given
name, the given description (empty when omitted), and the staged blob
reference when a photo was supplied (the blob's bytes being in the
store), increments the counter, and returns the created item view,
which carries `ID`, `InventoryName`, `Description`, and `PhotoLink` —
`PhotoLink` being JSON null without a photo and the derived path
`/inventory/{id}/photo` (not the raw stored filename) with one. -/
theorem register_success (s : ServerState) (name desc : Option String)
    (photo : Option StagedFile) (fsOk : Bool) (hw : WF s)
    (h : strTruthy name = true)
    (hf : ∀ f, photo = some f → f.filename ≠ "") :
    (register s name desc photo fsOk).2 = HResult.ok 201 (prepareItemResponse
        ⟨s.nextId, name.getD "", desc.getD "", photo.map StagedFile.filename⟩) ∧
    itemLookup s.nextId (register s name desc photo fsOk).1.inventoryItems =
      some ⟨s.nextId, name.getD "", desc.getD "", photo.map StagedFile.filename⟩ ∧
    (register s name desc photo fsOk).1.nextId = s.nextId + 1 ∧
    (∀ f, photo = some f →
      blobLookup f.filename (register s name desc photo fsOk).1.cacheFiles = some f.bytes) ∧
    jlookup "ID" (prepareItemResponse
        ⟨s.nextId, name.getD "", desc.getD "", photo.map StagedFile.filename⟩) =
      some (JVal.jnum s.nextId) ∧
    jlookup "InventoryName" (prepareItemResponse
        ⟨s.nextId, name.getD "", desc.getD "", photo.map StagedFile.filename⟩) =
      some (JVal.jstr (name.getD "")) ∧
    jlookup "Description" (prepareItemResponse
        ⟨s.nextId, name.getD "", desc.getD "", photo.map StagedFile.filename⟩) =
      some (JVal.jstr (desc.getD "")) ∧
    jlookup "PhotoLink" (prepareItemResponse
        ⟨s.nextId, name.getD "", desc.getD "", photo.map StagedFile.filename⟩) =
      some (if photo.isSome
        then JVal.jstr ("/inventory/" ++ toString s.nextId ++ "/photo")
        else JVal.jnull) := by
  have hnone : itemLookup s.nextId s.inventoryItems = none :=
    itemLookup_none_of_keys_lt (fun p hp => (hw p hp).2)
  have hview := jlookup_prepare
    ⟨s.nextId, name.getD "", desc.getD "", photo.map StagedFile.filename⟩
  cases photo with
  | none =>
    unfold register
    simp [h, jsOr_empty]
    refine ⟨?_, hview.1, hview.2.1, hview.2.2.1, ?_⟩
    · rw [itemLookup_append_right hnone]
      simp [itemLookup]
    · have := hview.2.2.2
      simpa [strTruthy] using this
  | some f =>
    have hfn : f.filename ≠ "" := hf f rfl
    unfold register
    simp [h, jsOr_empty]
    refine ⟨?_, ?_, hview.1, hview.2.1, hview.2.2.1, ?_⟩
    · rw [itemLookup_append_right hnone]
      simp [itemLookup]
    · exact blobLookup_storeBlob_self _ _ _
    · have := hview.2.2.2
      simpa [strTruthy, hfn] using this

/-- Witness for C4: registering "Drill" on the initial state stores
item 1 and returns the 201 view. -/
theorem register_success_witness :
    (register initialState (some "Drill") (some "Cordless drill") none false).2 =
      HResult.ok 201 (prepareItemResponse
        ⟨1, "Drill", "Cordless drill", none⟩) :=
  (register_success initialState (some "Drill") (some "Cordless drill") none false
    WF_initialState rfl (fun f hf => by cases hf)).1

/-- C5: Update on an existing item changes exactly the supplied
fields: the new stored item keeps the old `ID` and `Photo`, takes
`InventoryName` and `Description` from the request when supplied and
keeps the prior values otherwise; all other map entries, the counter,
and the blob store are untouched; the response is 200 for every
payload, so an update setting the name to the empty string is not
rejected. -/
theorem update_changes_only_supplied (s : ServerState) (i : Int) (item : Item)
    (invName desc : Option String)
    (h : itemLookup i s.inventoryItems = some item) :
    updateInventoryItem s (some i) invName desc =
      ({ s with inventoryItems := (setItem i
          ⟨item.ID, invName.getD item.InventoryName, desc.getD item.Description, item.Photo⟩
          s.inventoryItems) },
       HResult.ok 200 (prepareItemResponse
          ⟨item.ID, invName.getD item.InventoryName, desc.getD item.Description,
           item.Photo⟩)) ∧
    itemLookup i (updateInventoryItem s (some i) invName desc).1.inventoryItems =
      some ⟨item.ID, invName.getD item.InventoryName, desc.getD item.Description,
            item.Photo⟩ ∧
    (∀ j, j ≠ i →
      itemLookup j (updateInventoryItem s (some i) invName desc).1.inventoryItems =
        itemLookup j s.inventoryItems) ∧
    (updateInventoryItem s (some i) invName desc).1.nextId = s.nextId ∧
    (updateInventoryItem s (some i) invName desc).1.cacheFiles = s.cacheFiles := by
  have heq : updateInventoryItem s (some i) invName desc =
      ({ s with inventoryItems := (setItem i
          ⟨item.ID, invName.getD item.InventoryName, desc.getD item.Description, item.Photo⟩
          s.inventoryItems) },
       HResult.ok 200 (prepareItemResponse
          ⟨item.ID, invName.getD item.InventoryName, desc.getD item.Description,
           item.Photo⟩)) := by
    unfold updateInventoryItem
    cases invName <;> cases desc <;> simp [h]
  refine ⟨heq, ?_, ?_, ?_, ?_⟩
  · rw [heq]
    exact setItem_lookup_self h
  · intro j hj
    rw [heq]
    exact setItem_lookup_ne _ _ hj
  · rw [heq]
  · rw [heq]

/-- Witness for C5: updating item 1's name to the empty string
succeeds with 200 and keeps the description. -/
theorem update_changes_only_supplied_witness :
    updateInventoryItem
        ⟨[(1, ⟨1, "Drill", "Cordless drill", none⟩)], 2, []⟩
        (some 1) (some "") none =
      (⟨[(1, ⟨1, "", "Cordless drill", none⟩)], 2, []⟩,
       HResult.ok 200 (prepareItemResponse ⟨1, "", "Cordless drill", none⟩)) :=
  (update_changes_only_supplied
    ⟨[(1, ⟨1, "Drill", "Cordless drill", none⟩)], 2, []⟩
    1 ⟨1, "Drill", "Cordless drill", none⟩ (some "") none rfl).1

/-- C6: SearchById on an existing item answers 200 without changing
state; the reduced view always carries the item's `ID`,
`InventoryName` and `Description`; when the `has_photo` flag is not
`"on"` the view has no `PhotoLink` field at all, even if a photo
exists, and when the flag is `"on"` the field is present exactly when
the item has a photo (otherwise absent, not null). -/
theorem search_reduced_view (s : ServerState) (i : Int) (item : Item)
    (hasPhoto : Option String)
    (h : itemLookup i s.inventoryItems = some item)
    (hp : ∀ p, item.Photo = some p → p ≠ "") :
    (searchItem s (some i) hasPhoto).1 = s ∧
    ∃ body, (searchItem s (some i) hasPhoto).2 = HResult.ok 200 body ∧
      jlookup "ID" body = some (JVal.jnum item.ID) ∧
      jlookup "InventoryName" body = some (JVal.jstr item.InventoryName) ∧
      jlookup "Description" body = some (JVal.jstr item.Description) ∧
      (hasPhoto ≠ some "on" → jlookup "PhotoLink" body = none) ∧
      (hasPhoto = some "on" → jlookup "PhotoLink" body =
        (if item.Photo.isSome
         then some (JVal.jstr ("/inventory/" ++ toString item.ID ++ "/photo"))
         else none)) := by
  unfold searchItem
  simp [h]
  by_cases hon : hasPhoto = some "on"
  · cases hph : item.Photo with
    | none =>
      simp [hon, hph, strTruthy]
      simp [jlookup]
    | some p =>
      have hpe : p ≠ "" := hp p hph
      simp [hon, hph, strTruthy, hpe]
      simp [jlookup]
  · have hcond : ¬(hasPhoto = some "on" ∧ strTruthy item.Photo = true) :=
      fun hc => hon hc.1
    simp [hon]
    constructor
    · simp [jlookup]
    · simp [jlookup]

/-- Witness for C6: searching item 1 (which has a photo) with the flag
off yields a view without a `PhotoLink` field. -/
theorem search_reduced_view_witness :
    ∃ body, (searchItem ⟨[(1, ⟨1, "Drill", "d", some "f.jpg"⟩)], 2, [("f.jpg", [1])]⟩
        (some 1) none).2 = HResult.ok 200 body ∧
      jlookup "PhotoLink" body = none := by
  obtain ⟨h1, body, h2, h3, h4, h5, h6, h7⟩ := search_reduced_view
    ⟨[(1, ⟨1, "Drill", "d", some "f.jpg"⟩)], 2, [("f.jpg", [1])]⟩
    1 ⟨1, "Drill", "d", some "f.jpg"⟩ none rfl
    (fun p hp => by cases hp; decide)
  exact ⟨body, h2, h6 (by decide)⟩

/-- C9: GetPhoto never changes the state; it answers 404 exactly when
the item is missing or its photo reference is falsy; any success
response has status 200, content type `image/jpeg` (whatever the
stored bytes are), and carries exactly the bytes of the referenced
blob. -/
theorem get_photo_spec (s : ServerState) (reqId : Option Int) :
    (getInventoryPhoto s reqId).1 = s ∧
    ((∃ m, (getInventoryPhoto s reqId).2 = HResult.err 404 m) ↔
      (findItem s reqId = none ∨
       ∃ item, findItem s reqId = some item ∧ strTruthy item.Photo = false)) ∧
    (∀ st ct bytes, (getInventoryPhoto s reqId).2 = HResult.ok st (ct, bytes) →
      st = 200 ∧ ct = "image/jpeg" ∧
      ∃ item p, findItem s reqId = some item ∧ item.Photo = some p ∧
        blobLookup p s.cacheFiles = some bytes) := by
  unfold getInventoryPhoto findItem
  cases reqId with
  | none => simp
  | some i =>
    cases h : itemLookup i s.inventoryItems with
    | none => simp [h]
    | some item =>
      cases hph : item.Photo with
      | none => simp [h, hph, strTruthy]
      | some p =>
        by_cases hpe : p = ""
        · simp [h, hph, hpe, strTruthy]
        · cases hb : blobLookup p s.cacheFiles with
          | none => simp [h, hph, hpe, strTruthy, hb]
          | some bytes =>
            simp [h, hph, hpe, strTruthy, hb]

/-- Witness for C9 (trivially discharging its internal implications at
a concrete state): on the initial state GetPhoto of id 1 is a 404 and
the state is unchanged. -/
theorem get_photo_spec_witness :
    (getInventoryPhoto initialState (some 1)).1 = initialState ∧
    (∃ m, (getInventoryPhoto initialState (some 1)).2 = HResult.err 404 m) := by
  obtain ⟨h1, h2, h3⟩ := get_photo_spec initialState (some 1)
  exact ⟨h1, h2.mpr (Or.inl rfl)⟩

/-- C7: deleting an existing item (in a reachable, well-formed state)
answers 200 for every filesystem outcome of the best-effort blob
unlink; afterwards the id is absent from the map and from the List
views, GetPhoto on it is a 404, the counter is unchanged, the item's
blob (if any) is gone from the store when the filesystem deletion
succeeded, and no later request sequence ever assigns that id again. -/
theorem delete_removes_item (s : ServerState) (i : Int) (item : Item) (fsOk : Bool)
    (hw : WF s) (h : itemLookup i s.inventoryItems = some item) :
    (deleteInventoryItem s (some i) fsOk).2 = HResult.ok 200 "deleted" ∧
    (deleteInventoryItem s (some i) fsOk).1.nextId = s.nextId ∧
    itemLookup i (deleteInventoryItem s (some i) fsOk).1.inventoryItems = none ∧
    (∀ v ∈ listInventory (deleteInventoryItem s (some i) fsOk).1,
      jlookup "ID" v ≠ some (JVal.jnum i)) ∧
    (getInventoryPhoto (deleteInventoryItem s (some i) fsOk).1 (some i)).2 =
      HResult.err 404 "photo not found" ∧
    (fsOk = true → ∀ p, item.Photo = some p → p ≠ "" →
      blobLookup p (deleteInventoryItem s (some i) fsOk).1.cacheFiles = none) ∧
    (∀ ops, i ∉ assignedIds (deleteInventoryItem s (some i) fsOk).1 ops) := by
  have hmem := itemLookup_eq_some_mem h
  have hid : item.ID = i := (hw (i, item) hmem).1
  have hlt : i < s.nextId := (hw (i, item) hmem).2
  have hitems : (deleteInventoryItem s (some i) fsOk).1.inventoryItems =
      removeItem i s.inventoryItems := by
    unfold deleteInventoryItem findItem
    cases hph : item.Photo with
    | none => simp [h, hph, hid]
    | some p =>
      by_cases hpe : p = "" <;> simp [h, hph, hpe, hid]
  have hresp : (deleteInventoryItem s (some i) fsOk).2 = HResult.ok 200 "deleted" := by
    unfold deleteInventoryItem findItem
    cases hph : item.Photo with
    | none => simp [h, hph]
    | some p =>
      by_cases hpe : p = "" <;> simp [h, hph, hpe]
  have hnid := deleteInventoryItem_frame s (some i) fsOk
  have hgone : itemLookup i (deleteInventoryItem s (some i) fsOk).1.inventoryItems = none := by
    rw [hitems]
    exact removeItem_lookup_self i s.inventoryItems
  refine ⟨hresp, hnid, hgone, ?_, ?_, ?_, ?_⟩
  · intro v hv
    simp only [listInventory, hitems] at hv
    simp at hv
    obtain ⟨a, b, hab, hvv⟩ := hv
    have hne : a ≠ i := removeItem_mem_ne hab
    have hid2 : b.ID = a := (hw (a, b) (removeItem_subset hab)).1
    rw [← hvv]
    have := (jlookup_prepare b).1
    rw [this]
    simp [hid2]
    exact hne
  · unfold getInventoryPhoto
    simp [hgone]
  · intro hOk p hph hpe
    subst hOk
    have : (deleteInventoryItem s (some i) true).1.cacheFiles =
        removeBlob p s.cacheFiles := by
      unfold deleteInventoryItem findItem
      simp [h, hph, hpe, unlinkBlob]
    rw [this]
    exact blobLookup_removeBlob_self p s.cacheFiles
  · intro ops hmem2
    have := assignedIds_lower ops (deleteInventoryItem s (some i) fsOk).1 i hmem2
    rw [hnid] at this
    omega

/-- Witness for C7: deleting item 1 with its photo from a two-item
state removes it and its blob. -/
theorem delete_removes_item_witness :
    (deleteInventoryItem ⟨[(1, ⟨1, "Drill", "d", some "f.jpg"⟩)], 2, [("f.jpg", [1])]⟩
        (some 1) true).2 = HResult.ok 200 "deleted" ∧
    itemLookup 1 (deleteInventoryItem
        ⟨[(1, ⟨1, "Drill", "d", some "f.jpg"⟩)], 2, [("f.jpg", [1])]⟩
        (some 1) true).1.inventoryItems = none ∧
    blobLookup "f.jpg" (deleteInventoryItem
        ⟨[(1, ⟨1, "Drill", "d", some "f.jpg"⟩)], 2, [("f.jpg", [1])]⟩
        (some 1) true).1.cacheFiles = none := by
  obtain ⟨h1, h2, h3, h4, h5, h6, h7⟩ := delete_removes_item
    ⟨[(1, ⟨1, "Drill", "d", some "f.jpg"⟩)], 2, [("f.jpg", [1])]⟩
    1 ⟨1, "Drill", "d", some "f.jpg"⟩ true
    (by intro p hp; simp at hp; subst hp; decide) rfl
  exact ⟨h1, h3, h6 rfl "f.jpg" rfl (by decide)⟩

/-- C8: ReplacePhoto on an existing item fails with 400 and changes
nothing when no file is uploaded; with an uploaded file it succeeds:
the new blob is in the store, the item's reference now names it, a
subsequent GetPhoto serves the new bytes as `image/jpeg`, the updated
item view is returned, and the previously referenced blob is gone from
the store once the filesystem deletion succeeded. -/
theorem replace_photo_spec (s : ServerState) (i : Int) (item : Item) (fsOk : Bool)
    (h : itemLookup i s.inventoryItems = some item) :
    replaceInventoryPhoto s (some i) none fsOk = (s, HResult.err 400 "no file provided") ∧
    ∀ f : StagedFile, f.filename ≠ "" → (∀ p, item.Photo = some p → p ≠ f.filename) →
      (replaceInventoryPhoto s (some i) (some f) fsOk).2 =
        HResult.ok 200 (prepareItemResponse
          ⟨item.ID, item.InventoryName, item.Description, some f.filename⟩) ∧
      itemLookup i (replaceInventoryPhoto s (some i) (some f) fsOk).1.inventoryItems =
        some ⟨item.ID, item.InventoryName, item.Description, some f.filename⟩ ∧
      blobLookup f.filename
        (replaceInventoryPhoto s (some i) (some f) fsOk).1.cacheFiles = some f.bytes ∧
      (getInventoryPhoto (replaceInventoryPhoto s (some i) (some f) fsOk).1 (some i)).2 =
        HResult.ok 200 ("image/jpeg", f.bytes) ∧
      (fsOk = true → ∀ p, item.Photo = some p → p ≠ "" →
        blobLookup p (replaceInventoryPhoto s (some i) (some f) fsOk).1.cacheFiles = none) := by
  constructor
  · unfold replaceInventoryPhoto
    simp [h]
  · intro f hfn hold
    have hcache : blobLookup f.filename
        (replaceInventoryPhoto s (some i) (some f) fsOk).1.cacheFiles = some f.bytes := by
      unfold replaceInventoryPhoto
      cases hph : item.Photo with
      | none => simp [h, hph]; exact blobLookup_storeBlob_self _ _ _
      | some p =>
        by_cases hpe : p = ""
        · simp [h, hph, hpe]
          exact blobLookup_storeBlob_self _ _ _
        · have hne : f.filename ≠ p := fun hc => (hold p hph) hc.symm
          simp [h, hph, hpe, unlinkBlob]
          cases fsOk with
          | false => simp; exact blobLookup_storeBlob_self _ _ _
          | true =>
            simp
            rw [blobLookup_removeBlob_ne _ hne]
            exact blobLookup_storeBlob_self _ _ _
    have hresp : (replaceInventoryPhoto s (some i) (some f) fsOk).2 =
        HResult.ok 200 (prepareItemResponse
          ⟨item.ID, item.InventoryName, item.Description, some f.filename⟩) := by
      unfold replaceInventoryPhoto
      cases hph : item.Photo with
      | none => simp [h, hph]
      | some p =>
        by_cases hpe : p = "" <;> simp [h, hph, hpe]
    have hlook : itemLookup i
        (replaceInventoryPhoto s (some i) (some f) fsOk).1.inventoryItems =
        some ⟨item.ID, item.InventoryName, item.Description, some f.filename⟩ := by
      have : (replaceInventoryPhoto s (some i) (some f) fsOk).1.inventoryItems =
          setItem i ⟨item.ID, item.InventoryName, item.Description, some f.filename⟩
            s.inventoryItems := by
        unfold replaceInventoryPhoto
        cases hph : item.Photo with
        | none => simp [h, hph]
        | some p =>
          by_cases hpe : p = "" <;> simp [h, hph, hpe]
      rw [this]
      exact setItem_lookup_self h
    refine ⟨hresp, hlook, hcache, ?_, ?_⟩
    · unfold getInventoryPhoto
      simp [hlook, hfn, hcache]
    · intro hOk p hph hpe
      subst hOk
      have hne2 : p ≠ f.filename := hold p hph
      have : (replaceInventoryPhoto s (some i) (some f) true).1.cacheFiles =
          removeBlob p (storeBlob s.cacheFiles f.filename f.bytes) := by
        unfold replaceInventoryPhoto
        simp [h, hph, hpe, unlinkBlob]
      rw [this]
      have h3 : blobLookup p (storeBlob s.cacheFiles f.filename f.bytes) =
          blobLookup p s.cacheFiles := blobLookup_storeBlob_ne _ _ hne2
      exact blobLookup_removeBlob_self p _

/-- Witness for C8: replacing item 1's photo with a new file stores
the new blob, removes the old one, and GetPhoto serves the new
bytes. -/
theorem replace_photo_spec_witness :
    blobLookup "new.jpg" (replaceInventoryPhoto
        ⟨[(1, ⟨1, "Drill", "d", some "old.jpg"⟩)], 2, [("old.jpg", [1])]⟩
        (some 1) (some (StagedFile.mk "new.jpg" [9])) true).1.cacheFiles = some [9] ∧
    blobLookup "old.jpg" (replaceInventoryPhoto
        ⟨[(1, ⟨1, "Drill", "d", some "old.jpg"⟩)], 2, [("old.jpg", [1])]⟩
        (some 1) (some (StagedFile.mk "new.jpg" [9])) true).1.cacheFiles = none ∧
    (getInventoryPhoto (replaceInventoryPhoto
        ⟨[(1, ⟨1, "Drill", "d", some "old.jpg"⟩)], 2, [("old.jpg", [1])]⟩
        (some 1) (some (StagedFile.mk "new.jpg" [9])) true).1 (some 1)).2 =
      HResult.ok 200 ("image/jpeg", [9]) := by
  obtain ⟨h0, hrest⟩ := replace_photo_spec
    ⟨[(1, ⟨1, "Drill", "d", some "old.jpg"⟩)], 2, [("old.jpg", [1])]⟩
    1 ⟨1, "Drill", "d", some "old.jpg"⟩ true rfl
  obtain ⟨h1, h2, h3, h4, h5⟩ := hrest (StagedFile.mk "new.jpg" [9]) (by decide)
    (fun p hp => by cases hp; decide)
  exact ⟨h3, h5 rfl "old.jpg" rfl (by decide), h4⟩

/-- Counterexample to C3 as stated: a ReplacePhoto request for an id
absent from the catalog (id 1 on the empty initial catalog) that
carries an uploaded file does fail with 404, but the blob store is NOT
left unchanged — the file staged by the upload middleware stays behind
as an orphan, because the 404 path performs no cleanup. -/
theorem replace_photo_notfound_orphan :
    (replaceInventoryPhoto initialState (some 1)
        (some (StagedFile.mk "1700-a.jpg" [7])) true).2 = HResult.err 404 "not found" ∧
    (replaceInventoryPhoto initialState (some 1)
        (some (StagedFile.mk "1700-a.jpg" [7])) true).1.cacheFiles ≠
      initialState.cacheFiles := by
  constructor
  · rfl
  · decide

/-- C3 (amended): for an id not in the catalog, Get, Update, Delete,
ReplacePhoto and SearchById all fail with 404; Get, Update, Delete and
SearchById leave the whole state unchanged; ReplacePhoto leaves the
catalog map and the counter unchanged and, when no file was uploaded,
the whole state — but a file staged by the upload middleware remains
in the blob store (it is not cleaned up on the 404 path). -/
theorem notfound_no_mutation (s : ServerState) (i : Int)
    (h : itemLookup i s.inventoryItems = none) :
    getInventoryItem s (some i) = (s, HResult.err 404 "not found") ∧
    (∀ n d, updateInventoryItem s (some i) n d = (s, HResult.err 404 "not found")) ∧
    (∀ fsOk, deleteInventoryItem s (some i) fsOk = (s, HResult.err 404 "not found")) ∧
    (∀ hp, searchItem s (some i) hp = (s, HResult.err 404 "not found")) ∧
    (∀ fsOk, replaceInventoryPhoto s (some i) none fsOk =
      (s, HResult.err 404 "not found")) ∧
    (∀ f fsOk,
      (replaceInventoryPhoto s (some i) (some f) fsOk).2 = HResult.err 404 "not found" ∧
      (replaceInventoryPhoto s (some i) (some f) fsOk).1.inventoryItems =
        s.inventoryItems ∧
      (replaceInventoryPhoto s (some i) (some f) fsOk).1.nextId = s.nextId ∧
      (replaceInventoryPhoto s (some i) (some f) fsOk).1.cacheFiles =
        storeBlob s.cacheFiles f.filename f.bytes) := by
  refine ⟨?_, ?_, ?_, ?_, ?_, ?_⟩
  · unfold getInventoryItem findItem
    simp [h]
  · intro n d
    unfold updateInventoryItem
    simp [h]
  · intro fsOk
    unfold deleteInventoryItem findItem
    simp [h]
  · intro hp
    unfold searchItem
    simp [h]
  · intro fsOk
    unfold replaceInventoryPhoto
    simp [h]
  · intro f fsOk
    unfold replaceInventoryPhoto
    simp [h]

/-- Witness for the amended C3: on the initial (empty) catalog, Get of
id 5 is a 404 that leaves the state unchanged. -/
theorem notfound_no_mutation_witness :
    getInventoryItem initialState (some 5) =
      (initialState, HResult.err 404 "not found") :=
  (notfound_no_mutation initialState 5 rfl).1

/-- Counterexample to C10 as stated: a ReplacePhoto request whose id
does not parse (`parseInt` yields `NaN`) and that carries an uploaded
file fails with 404, but the staged file stays in the blob store, so
the store is not left unchanged. -/
theorem nan_id_orphan :
    (replaceInventoryPhoto initialState none
        (some (StagedFile.mk "1700-b.jpg" [2])) true).2 = HResult.err 404 "not found" ∧
    (replaceInventoryPhoto initialState none
        (some (StagedFile.mk "1700-b.jpg" [2])) true).1.cacheFiles ≠
      initialState.cacheFiles := by
  constructor
  · rfl
  · decide

/-- C10 (amended): a request id that does not parse as an integer
(`parseInt` yields `NaN`, modelled as `none`) is treated exactly like
an unknown id: Get, Update, Delete, GetPhoto, ReplacePhoto and
SearchById answer 404 and leave the catalog map and counter unchanged
— and the whole state unchanged except that a ReplacePhoto request
carrying an uploaded file leaves the staged file in the blob store.
No other outcome occurs. -/
theorem nan_id_treated_as_unknown (s : ServerState) :
    getInventoryItem s none = (s, HResult.err 404 "not found") ∧
    (∀ n d, updateInventoryItem s none n d = (s, HResult.err 404 "not found")) ∧
    (∀ fsOk, deleteInventoryItem s none fsOk = (s, HResult.err 404 "not found")) ∧
    getInventoryPhoto s none = (s, HResult.err 404 "photo not found") ∧
    (∀ hp, searchItem s none hp = (s, HResult.err 404 "not found")) ∧
    (∀ fsOk, replaceInventoryPhoto s none none fsOk =
      (s, HResult.err 404 "not found")) ∧
    (∀ f fsOk,
      (replaceInventoryPhoto s none (some f) fsOk).2 = HResult.err 404 "not found" ∧
      (replaceInventoryPhoto s none (some f) fsOk).1.inventoryItems = s.inventoryItems ∧
      (replaceInventoryPhoto s none (some f) fsOk).1.nextId = s.nextId ∧
      (replaceInventoryPhoto s none (some f) fsOk).1.cacheFiles =
        storeBlob s.cacheFiles f.filename f.bytes) := by
  refine ⟨rfl, fun n d => rfl, fun fsOk => rfl, rfl, fun hp => rfl, fun fsOk => rfl, ?_⟩
  intro f fsOk
  exact ⟨rfl, rfl, rfl, rfl⟩

end Inventory
